import Mathlib

/-!
Verification of the settings-persistence and lifecycle core of
`Logic/Environment.py` (class `Environment`): a shallow embedding of the
JSON settings document, the recursive `updateDictionary` merge, the
`__loadSettings` loader, `updateSettings`, the deep-copying accessors
`getSettings` / `getSetting`, device auto-activation in `__init__`, and the
`close` shutdown sequence.
-/

namespace UCS

mutual
/-- A JSON-like value as produced by `json.load` and stored in the settings
document: `null`, booleans, numbers (modelled as integers), strings, and
string-keyed mappings whose insertion order is preserved (Python `dict`).
JSON arrays are not modelled; no claim requires them. `JFields` is the
(ordered) field list of a mapping. -/
inductive JValue : Type where
  | null : JValue
  | bool (b : Bool) : JValue
  | num (n : Int) : JValue
  | str (s : String) : JValue
  | obj (fs : JFields) : JValue
  deriving DecidableEq

inductive JFields : Type where
  | nil : JFields
  | cons (k : String) (v : JValue) (rest : JFields) : JFields
  deriving DecidableEq
end

/-- First-match lookup of a key in a field list (Python `d[k]` / `k in d`;
parsed JSON mappings have unique keys, where lookup order is irrelevant). -/
def lookupF (k : String) : JFields → Option JValue
  | .nil => none
  | .cons k' v rest => if k = k' then some v else lookupF k rest

/-- The keys of a field list, in insertion order. -/
def keysF : JFields → List String
  | .nil => []
  | .cons k _ rest => k :: keysF rest

/-- Replace the value at key `k` (first occurrence) by `v`
(Python `d[k] = v` for a present key). -/
def setF (k : String) (v : JValue) : JFields → JFields
  | .nil => .nil
  | .cons k' w rest => if k = k' then .cons k' v rest else .cons k' w (setF k v rest)

/-- Number of fields (Python `len(d)`). -/
def lenF : JFields → Nat
  | .nil => 0
  | .cons _ _ rest => lenF rest + 1

mutual
/-- Python `==` on the modelled JSON values: `None` equals only `None`,
booleans compare numerically with integers (`True == 1` in Python),
strings compare as strings, and mappings compare as finite maps (same
size and every field of one present in the other with an `==`-equal
value), independent of insertion order. -/
def pyEq : JValue → JValue → Bool
  | .null, .null => true
  | .bool a, .bool b => a == b
  | .bool a, .num n => (if a then (1 : Int) else 0) == n
  | .num n, .bool b => n == (if b then (1 : Int) else 0)
  | .num a, .num b => a == b
  | .str a, .str b => a == b
  | .obj fs, .obj gs => lenF fs == lenF gs && pyEqSub fs gs
  | _, _ => false

/-- Every field of the first list occurs in the second with a `pyEq`-equal
value. -/
def pyEqSub : JFields → JFields → Bool
  | .nil, _ => true
  | .cons k v rest, gs =>
      (match lookupF k gs with
       | some w => pyEq v w
       | none => false) && pyEqSub rest gs
end

/-- `isinstance(v, dict)`. -/
def isObj : JValue → Bool
  | .obj _ => true
  | _ => false

/-- Python `needle in hay` on strings: substring containment. -/
def isSubstr (needle hay : String) : Bool :=
  decide (needle.toList <:+: hay.toList)

/-- `for key in default` when the default value is a string (unreachable
from the shipped default schema, modelled for totality): Python iterates
the characters; a character that is a key/member of `new` leads to
indexing or item-assignment on the string, a `TypeError`; membership
tests against a non-iterable `new` are a `TypeError` as well. -/
def strIter : List Char → JValue → Except Unit Unit
  | [], _ => .ok ()
  | c :: cs, new =>
      match new with
      | .obj nfs =>
          match lookupF (String.singleton c) nfs with
          | some _ => .error ()
          | none => strIter cs new
      | .str s' => if s'.contains c then .error () else strIter cs new
      | _ => .error ()

mutual
/-- The nested helper `updateDictionary(default, new)` of
`Environment.__loadSettings` (Environment.py lines 192-207), modelled as a
pure function returning the mutated `default`.  `for key in default`
iterates the default's keys in order; when `key in new`, a mapping
`new[key]` triggers recursion into `default[key]` (whatever its shape),
otherwise `default[key] = new[key]` overwrites.  Iterating a non-iterable
default (`None`, booleans, numbers) raises `TypeError`, modelled as
`.error ()`; so does `key in new` for non-iterable `new`. -/
def updateDictionary : JValue → JValue → Except Unit JValue
  | .obj dfs, new => (mergeFields dfs new).map .obj
  | .str s, new => (strIter s.toList new).map (fun _ => .str s)
  | _, _ => .error ()

/-- The `for key in default` loop of `updateDictionary` over the remaining
default fields. -/
def mergeFields : JFields → JValue → Except Unit JFields
  | .nil, _ => .ok .nil
  | .cons k v rest, .obj nfs =>
      match hl : lookupF k nfs with
      | none => (mergeFields rest (.obj nfs)).map (.cons k v ·)
      | some nv =>
          if isObj nv then
            match updateDictionary v nv with
            | .error e => .error e
            | .ok v' => (mergeFields rest (.obj nfs)).map (.cons k v' ·)
          else
            (mergeFields rest (.obj nfs)).map (.cons k nv ·)
  | .cons k v rest, .str s =>
      if isSubstr k s then .error ()
      else (mergeFields rest (.str s)).map (.cons k v ·)
  | .cons _ _ _, _ => .error ()
end

instance {α : Type} [DecidableEq α] : DecidableEq (Except Unit α) := fun a b =>
  match a, b with
  | .error _, .error _ => isTrue rfl
  | .ok x, .ok y =>
      if h : x = y then isTrue (by rw [h]) else isFalse (fun he => h (Except.ok.inj he))
  | .error _, .ok _ => isFalse (fun h => Except.noConfusion h)
  | .ok _, .error _ => isFalse (fun h => Except.noConfusion h)

mutual
/-- Kind-compatibility of a loaded value with a default value: wherever
both are mappings, recursively compare the shared keys; a mapping on one
side only is incompatible (those are exactly the merge's crash and
shape-overwrite situations). -/
def compat : JValue → JValue → Bool
  | .obj dfs, .obj nfs => compatF dfs nfs
  | .obj _, _ => false
  | _, .obj _ => false
  | _, _ => true

/-- Kind-compatibility of a loaded mapping's fields with the default's
fields, over the default's keys. -/
def compatF : JFields → JFields → Bool
  | .nil, _ => true
  | .cons k v rest, nfs =>
      (match lookupF k nfs with
       | none => true
       | some nv => compat v nv) && compatF rest nfs
end

mutual
/-- Same shape: equal key skeleton (keys in order, mapping vs scalar),
ignoring scalar values. -/
def shapeEq : JValue → JValue → Bool
  | .obj fs, .obj gs => shapeEqF fs gs
  | .obj _, _ => false
  | _, .obj _ => false
  | _, _ => true

/-- Same shape for field lists. -/
def shapeEqF : JFields → JFields → Bool
  | .nil, .nil => true
  | .cons k v r, .cons k' w r' => (k == k') && shapeEq v w && shapeEqF r r'
  | .nil, .cons _ _ _ => false
  | .cons _ _ _, .nil => false
end

mutual
/-- Whether key `k` is present anywhere in the document (at the top level
or in a nested mapping). -/
def hasKey : JValue → String → Bool
  | .obj fs, k => hasKeyF fs k
  | _, _ => false

/-- Whether key `k` is present in the field list or below it. -/
def hasKeyF : JFields → String → Bool
  | .nil, _ => false
  | .cons k' v rest, k => (k == k') || hasKey v k || hasKeyF rest k
end

/-- Fields of `defaultSettings["motionCalibrations"]` (Environment.py
lines 157-160). -/
def motionCalibrationsDefault : JFields :=
  .cons "stationaryMovement" .null (.cons "activeMovement" .null .nil)

/-- Fields of `defaultSettings["coordCalibrations"]` (lines 163-167). -/
def coordCalibrationsDefault : JFields :=
  .cons "ptPairs" .null (.cons "failPts" .null (.cons "groundPos" .null .nil))

/-- Fields of `defaultSettings["consoleSettings"]` (lines 171-180). -/
def consoleSettingsDefault : JFields :=
  .cons "wordWrap" (.bool false) (.cons "robot" (.bool true) (.cons "vision" (.bool true)
    (.cons "serial" (.bool false) (.cons "interpreter" (.bool true) (.cons "script" (.bool true)
    (.cons "gui" (.bool false) (.cons "other" (.bool true) .nil)))))))

/-- The fields of the `defaultSettings` document built at the top of
`Environment.__loadSettings` (lines 149-185), in construction order. -/
def defaultFields : JFields :=
  .cons "robotID" .null (.cons "cameraID" .null
   (.cons "motionCalibrations" (.obj motionCalibrationsDefault)
    (.cons "coordCalibrations" (.obj coordCalibrationsDefault)
     (.cons "consoleSettings" (.obj consoleSettingsDefault)
      (.cons "windowGeometry" .null (.cons "windowState" .null
       (.cons "lastOpenedFile" .null .nil)))))))

/-- The canonical default settings document. -/
def defaultSettings : JValue := .obj defaultFields

/-- Outcome of `open(self.__settingsPath)` followed by `json.load` for a
given path: the read raised `IOError` (file missing or unreadable), the
parse raised `ValueError` (malformed JSON), or a document was parsed. -/
inductive FileOutcome : Type where
  | ioError : FileOutcome
  | valueError : FileOutcome
  | parsed (v : JValue) : FileOutcome
  deriving DecidableEq

/-- `printf` line emitted unconditionally at the start of `__loadSettings`. -/
def loadingMsg : String := "Environment| Loading Settings"

/-- `printf` line of the `except IOError` handler. -/
def ioErrorMsg : String :=
  "Environment| ERROR: No settings file detected. Using default values."

/-- `printf` line of the `except ValueError` handler. -/
def valueErrorMsg : String :=
  "Environment| ERROR: while loading an existing settings file. Using default values."

/-- Result of `__loadSettings`: the returned document, or `.error ()` for
an exception escaping the method, plus the `printf` log lines. -/
structure LoadResult where
  result : Except Unit JValue
  log : List String

/-- `Environment.__loadSettings` (lines 143-223): build the defaults, try
to read and parse the file, reconcile with `updateDictionary`.  `IOError`
and `ValueError` are caught, logged, and recovered by returning the
defaults; any other exception (the merge's `TypeError`) escapes. -/
def loadSettings (file : FileOutcome) : LoadResult :=
  match file with
  | .ioError => ⟨.ok defaultSettings, [loadingMsg, ioErrorMsg]⟩
  | .valueError => ⟨.ok defaultSettings, [loadingMsg, valueErrorMsg]⟩
  | .parsed v =>
      match updateDictionary defaultSettings v with
      | .ok d => ⟨.ok d, [loadingMsg]⟩
      | .error e => ⟨.error e, [loadingMsg]⟩

/-- Observable outcome of one `updateSettings(category, newSettings)`
call: the in-memory document afterwards (mutated before the disk write,
so reported even when the write raises), whether `json.dump` completed,
whether an exception propagated to the caller (`KeyError` on a missing
category, `IOError` from the disk write), the `printf` log lines, and
the Python return value — `none` models `None`, `some b` would model a
returned boolean. -/
structure UpdateResult where
  settings : JFields
  wrote : Bool
  raised : Bool
  log : List String
  ret : Option Bool
  deriving DecidableEq

/-- `printf` line of the saving branch of `updateSettings`. -/
def savingMsg (category : String) : String :=
  "Environment| Saving setting: " ++ category

/-- `printf` line of the unchanged branch of `updateSettings`. -/
def noChangeMsg (category : String) : String :=
  "Environment| No settings changed: " ++ category

/-- `Environment.updateSettings` (lines 121-141).  `writeFails` abstracts
the disk: when true, `json.dump(.., open(path, 'w'), ..)` raises
`IOError`.  `current = self.__settings[category]` raises `KeyError` when
the category is absent.  `deepcopy(newSettings)` is the identity on pure
values (aliasing is modelled separately in the heap section). -/
def updateSettings (writeFails : Bool) (settings : JFields) (category : String)
    (newSettings : JValue) : UpdateResult :=
  match lookupF category settings with
  | none => ⟨settings, false, true, [], none⟩
  | some current =>
      if ((current == .null) || !pyEq current newSettings) && (newSettings != .null) then
        let settings' := setF category newSettings settings
        if writeFails then
          ⟨settings', false, true, [savingMsg category], none⟩
        else
          ⟨settings', true, false, [savingMsg category], none⟩
      else
        ⟨settings, false, false, [noChangeMsg category], none⟩

/-- The three shutdown calls `Environment.close` makes, as signals. -/
inductive Sig : Type where
  | robotSetExiting : Sig
  | visionSetExiting : Sig
  | vstreamEndThread : Sig
  deriving DecidableEq

/-- Which of the three external shutdown calls raise an exception when
invoked (their code is outside this core). -/
structure CloseBehavior where
  robotRaises : Bool
  visionRaises : Bool
  vstreamRaises : Bool
  deriving DecidableEq

/-- Outcome of `Environment.close`: the calls issued in order, and whether
`close` returned normally (no exception propagated). -/
structure CloseResult where
  trace : List Sig
  completed : Bool
  deriving DecidableEq

/-- `Environment.close` (lines 228-233): three plain sequential calls —
`robot.setExiting(True)`, `vision.setExiting(True)`,
`vStream.endThread()` — with no exception handling, so a raising call
propagates and the following calls are never issued. -/
def close (b : CloseBehavior) : CloseResult :=
  if b.robotRaises then ⟨[.robotSetExiting], false⟩
  else if b.visionRaises then ⟨[.robotSetExiting, .visionSetExiting], false⟩
  else ⟨[.robotSetExiting, .visionSetExiting, .vstreamEndThread], !b.vstreamRaises⟩

/-- A capture/hardware device handle: the configured identifier (`none` =
unconfigured) and the identifier of a failed activation attempt, kept
observable. -/
structure DeviceHandle where
  activeID : Option JValue
  failedID : Option JValue
  deriving DecidableEq

/-- A freshly constructed handle: unconfigured, no side effects. -/
def DeviceHandle.fresh : DeviceHandle := ⟨none, none⟩

/-- Modelled from the spec: `Video.VideoStream.setNewCamera` is not under
`src/`; per the spec the capture source's activate-by-identifier
operation fails softly — on an unavailable device it raises nothing, the
handle remains unconfigured, and the failing identifier stays
observable. -/
def setNewCamera (avail : JValue → Bool) (id : JValue) (h : DeviceHandle) : DeviceHandle :=
  if avail id then { h with activeID := some id } else { h with failedID := some id }

/-- Modelled from the spec: `Robot.Robot.setUArm` is not under `src/`;
same soft-failure activation contract as `setNewCamera`. -/
def setUArm (avail : JValue → Bool) (id : JValue) (h : DeviceHandle) : DeviceHandle :=
  if avail id then { h with activeID := some id } else { h with failedID := some id }

/-- Coordinator state after a completed `Environment.__init__`: the
settings document and the two auto-activatable handles. -/
structure EnvState where
  settings : JFields
  vStream : DeviceHandle
  robot : DeviceHandle
  deriving DecidableEq

/-- `Environment.__init__` (lines 66-91): load the settings, construct
the handles side-effect-free, then activate the camera and the robot
when `settings['cameraID']` / `settings['robotID']` are not `None`.  An
uncaught exception from `__loadSettings` (or a `KeyError` from the
identifier lookups) aborts construction. -/
def Environment.init (file : FileOutcome) (camAvail robAvail : JValue → Bool) :
    Except Unit EnvState :=
  match (loadSettings file).result with
  | .error _ => .error ()
  | .ok (.obj fs) =>
      match lookupF "cameraID" fs, lookupF "robotID" fs with
      | some cameraID, some robotID =>
          let vStream := if cameraID = .null then .fresh
                         else setNewCamera camAvail cameraID .fresh
          let robot := if robotID = .null then .fresh
                       else setUArm robAvail robotID .fresh
          .ok ⟨fs, vStream, robot⟩
      | _, _ => .error ()
  | .ok _ => .error ()

/-! ### Aliasing model for the deep-copying accessors

`getSettings` / `getSetting` return `deepcopy(self.__settings)` /
`deepcopy(self.__settings[category])`.  To state that callers cannot
mutate the internal document through the returned value, Python objects
are modelled as cells in an explicit heap: address = list index,
allocation = append, caller mutation = in-place overwrite of a cell. -/

/-- A heap cell: scalars inline, mappings hold the addresses of their
field values. -/
inductive HValue : Type where
  | null : HValue
  | bool (b : Bool) : HValue
  | num (n : Int) : HValue
  | str (s : String) : HValue
  | obj (fields : List (String × Nat)) : HValue
  deriving DecidableEq

/-- The object store. -/
abbrev Heap := List HValue

mutual
/-- Read the value graph rooted at address `a` back into a pure value;
`fuel` bounds the total work (heaps built by `storeVal` are acyclic). -/
def readBack : Nat → Heap → Nat → Option JValue
  | 0, _, _ => none
  | fuel+1, h, a =>
      match h[a]? with
      | some .null => some .null
      | some (.bool b) => some (.bool b)
      | some (.num n) => some (.num n)
      | some (.str s) => some (.str s)
      | some (.obj fields) => (readFields fuel h fields).map .obj
      | none => none

/-- Read each field's value graph back. -/
def readFields : Nat → Heap → List (String × Nat) → Option JFields
  | _, _, [] => some .nil
  | 0, _, _ :: _ => none
  | fuel+1, h, (k, a) :: rest =>
      match readBack fuel h a, readFields fuel h rest with
      | some v, some fs => some (.cons k v fs)
      | _, _ => none
end

mutual
/-- `copy.deepcopy`'s allocation of a pure value into the heap: children
first, then the cell itself; returns the extended heap and the root
address.  Every allocated cell is fresh (appended). -/
def storeVal (h : Heap) : JValue → Heap × Nat
  | .null => (h ++ [.null], h.length)
  | .bool b => (h ++ [.bool b], h.length)
  | .num n => (h ++ [.num n], h.length)
  | .str s => (h ++ [.str s], h.length)
  | .obj fs =>
      ((storeFields h fs).1 ++ [.obj (storeFields h fs).2],
       (storeFields h fs).1.length)

/-- Allocate each field value in order. -/
def storeFields (h : Heap) : JFields → Heap × List (String × Nat)
  | .nil => (h, [])
  | .cons k v rest =>
      ((storeFields (storeVal h v).1 rest).1,
       (k, (storeVal h v).2) :: (storeFields (storeVal h v).1 rest).2)
end

mutual
/-- Weight of a pure value: fuel sufficient to read a stored copy back. -/
def weight : JValue → Nat
  | .obj fs => weightF fs + 1
  | _ => 1

/-- Weight of a field list. -/
def weightF : JFields → Nat
  | .nil => 0
  | .cons _ v rest => weight v + weightF rest + 1
end

/-- `Environment.getSettings` (lines 115-116) in the aliasing model: the
live document sits at `root` in heap `h`; `deepcopy(self.__settings)`
reads the graph back and allocates a fresh copy, returning the extended
heap and the copy's root. -/
def getSettings (fuel : Nat) (h : Heap) (root : Nat) : Option (Heap × Nat) :=
  (readBack fuel h root).map (storeVal h)

/-- `Environment.getSetting(category)` (lines 118-119):
`deepcopy(self.__settings[category])`. -/
def getSetting (fuel : Nat) (h : Heap) (root : Nat) (category : String) :
    Option (Heap × Nat) :=
  match readBack fuel h root with
  | some (.obj fs) => (lookupF category fs).map (storeVal h)
  | _ => none

/-- One caller-side mutation: overwrite the cell at address `a`. -/
def writeCell (h : Heap) (a : Nat) (v : HValue) : Heap := h.set a v

/-- A sequence of caller-side mutations, applied left to right. -/
def applyMuts (muts : List (Nat × HValue)) (h : Heap) : Heap :=
  muts.foldl (fun h m => writeCell h m.1 m.2) h

/-- A cell present in a heap is still present after appending. -/
theorem getElem?_append_some {ext : Heap} :
    ∀ (h : Heap) (i : Nat) {w : HValue}, h[i]? = some w → (h ++ ext)[i]? = some w := by
  intro h
  induction h with
  | nil => intro i w hw; simp at hw
  | cons x t ih =>
      intro i w hw
      cases i with
      | zero => simpa using hw
      | succ n => simpa using ih n (by simpa using hw)

/-- The freshly appended cell sits at the old length. -/
theorem getElem?_concat (h : Heap) (x : HValue) : (h ++ [x])[h.length]? = some x := by
  induction h with
  | nil => rfl
  | cons y t ih =>
      simp only [List.cons_append, List.length_cons, List.getElem?_cons_succ]
      exact ih

/-- A successful read is in bounds. -/
theorem getElem?_some_lt : ∀ (h : Heap) (i : Nat) {w : HValue},
    h[i]? = some w → i < h.length := by
  intro h
  induction h with
  | nil => intro i w hw; simp at hw
  | cons x t ih =>
      intro i w hw
      cases i with
      | zero => simp
      | succ n => have := ih n (by simpa using hw); simpa using this

/-- Overwriting one cell leaves the others unchanged. -/
theorem getElem?_writeCell_ne (h : Heap) (a : Nat) (v : HValue) (i : Nat)
    (hne : i ≠ a) : (writeCell h a v)[i]? = h[i]? := by
  induction h generalizing a i with
  | nil => simp [writeCell]
  | cons x t ih =>
      cases a with
      | zero =>
          cases i with
          | zero => exact absurd rfl hne
          | succ n => simp [writeCell]
      | succ m =>
          cases i with
          | zero => simp [writeCell]
          | succ n =>
              have hnm : n ≠ m := fun hnm => hne (by simp [hnm])
              simpa [writeCell] using ih m n hnm

/-- Mutations that avoid address `i` leave the cell at `i` unchanged. -/
theorem getElem?_applyMuts : ∀ (muts : List (Nat × HValue)) (H : Heap) (i : Nat),
    (∀ m ∈ muts, i ≠ m.1) → (applyMuts muts H)[i]? = H[i]? := by
  intro muts
  induction muts with
  | nil => intro H i _; rfl
  | cons m rest ih =>
      intro H i hm
      have h1 : (applyMuts rest (writeCell H m.1 m.2))[i]? = (writeCell H m.1 m.2)[i]? :=
        ih _ i (fun m' hm' => hm m' (List.mem_cons_of_mem _ hm'))
      have h2 : (writeCell H m.1 m.2)[i]? = H[i]? :=
        getElem?_writeCell_ne H m.1 m.2 i (hm m (List.mem_cons_self _ _))
      calc (applyMuts (m :: rest) H)[i]? = (applyMuts rest (writeCell H m.1 m.2))[i]? := rfl
    _ = H[i]? := by rw [h1, h2]

/-- Heaps that agree on every cell the first one has give the same
read-backs: joint statement for `readBack` and `readFields`. -/
theorem readBack_readFields_agree (fuel : Nat) :
    (∀ (h h' : Heap), (∀ (i : Nat) (w : HValue), h[i]? = some w → h'[i]? = some w) →
      ∀ a v, readBack fuel h a = some v → readBack fuel h' a = some v) ∧
    (∀ (h h' : Heap), (∀ (i : Nat) (w : HValue), h[i]? = some w → h'[i]? = some w) →
      ∀ as fs, readFields fuel h as = some fs → readFields fuel h' as = some fs) := by
  induction fuel with
  | zero =>
      constructor
      · intro h h' _ a v hv; simp [readBack] at hv
      · intro h h' _ as fs hfs
        cases as with
        | nil => simpa [readFields] using hfs
        | cons p rest =>
            cases p with
            | mk k a => simp [readFields, readBack] at hfs
  | succ n ih =>
      constructor
      · intro h h' hag a v hv
        rw [readBack] at hv ⊢
        cases hget : h[a]? with
        | none => rw [hget] at hv; simp at hv
        | some hv0 =>
            rw [hget] at hv
            rw [hag a hv0 hget]
            cases hv0 with
            | obj fields =>
                simp only at hv ⊢
                obtain ⟨fs, hfs, hv⟩ := Option.map_eq_some'.mp hv
                rw [ih.2 h h' hag fields fs hfs]
                simpa using hv
            | null => exact hv
            | bool b => exact hv
            | num m => exact hv
            | str s => exact hv
      · intro h h' hag as fs hfs
        cases as with
        | nil => simp only [readFields] at hfs ⊢; exact hfs
        | cons p rest =>
            cases p with
            | mk k a =>
                rw [readFields] at hfs ⊢
                cases hva : readBack n h a with
                | none => rw [hva] at hfs; simp at hfs
                | some v =>
                    rw [hva] at hfs
                    cases hfr : readFields n h rest with
                    | none => rw [hfr] at hfs; simp at hfs
                    | some frest =>
                        rw [hfr] at hfs
                        rw [ih.1 h h' hag a v hva, ih.2 h h' hag rest frest hfr]
                        exact hfs

mutual
/-- `storeVal` only appends cells. -/
theorem storeVal_append (v : JValue) (h : Heap) : ∃ ext, (storeVal h v).1 = h ++ ext := by
  cases v with
  | null => exact ⟨[.null], rfl⟩
  | bool b => exact ⟨[.bool b], rfl⟩
  | num n => exact ⟨[.num n], rfl⟩
  | str s => exact ⟨[.str s], rfl⟩
  | obj fs =>
      obtain ⟨e1, h1⟩ := storeFields_append fs h
      exact ⟨e1 ++ [.obj (storeFields h fs).2], by simp [storeVal, h1]⟩

/-- `storeFields` only appends cells. -/
theorem storeFields_append (fs : JFields) (h : Heap) :
    ∃ ext, (storeFields h fs).1 = h ++ ext := by
  cases fs with
  | nil => exact ⟨[], by simp [storeFields]⟩
  | cons k v rest =>
      obtain ⟨e1, h1⟩ := storeVal_append v h
      obtain ⟨e2, h2⟩ := storeFields_append rest (storeVal h v).1
      exact ⟨e1 ++ e2, by simp only [storeFields]; rw [h2, h1, List.append_assoc]⟩
end

/-- Allocation never shrinks the heap. -/
theorem storeFields_length_le (fs : JFields) (h : Heap) :
    h.length ≤ (storeFields h fs).1.length := by
  obtain ⟨ext, he⟩ := storeFields_append fs h
  simp [he]

/-- The copy's root is a fresh address. -/
theorem storeVal_root_ge (v : JValue) (h : Heap) : h.length ≤ (storeVal h v).2 := by
  cases v with
  | null => exact le_refl _
  | bool b => exact le_refl _
  | num n => exact le_refl _
  | str s => exact le_refl _
  | obj fs => exact storeFields_length_le fs h

mutual
/-- A stored copy reads back as the stored value, also after further
appends. -/
theorem storeVal_readBack (v : JValue) (h : Heap) :
    ∀ (fuel : Nat), weight v ≤ fuel →
    readBack fuel (storeVal h v).1 (storeVal h v).2 = some v := by
  intro fuel hd
  cases v with
  | null =>
      cases fuel with
      | zero => simp [weight] at hd
      | succ n =>
          show readBack (n+1) (h ++ [HValue.null]) h.length = some .null
          rw [readBack, getElem?_concat]
  | bool b =>
      cases fuel with
      | zero => simp [weight] at hd
      | succ n =>
          show readBack (n+1) (h ++ [HValue.bool b]) h.length = some (.bool b)
          rw [readBack, getElem?_concat]
  | num m =>
      cases fuel with
      | zero => simp [weight] at hd
      | succ n =>
          show readBack (n+1) (h ++ [HValue.num m]) h.length = some (.num m)
          rw [readBack, getElem?_concat]
  | str s =>
      cases fuel with
      | zero => simp [weight] at hd
      | succ n =>
          show readBack (n+1) (h ++ [HValue.str s]) h.length = some (.str s)
          rw [readBack, getElem?_concat]
  | obj fs =>
      cases fuel with
      | zero => simp [weight] at hd
      | succ n =>
          have hd' : weightF fs ≤ n := by
            rw [weight] at hd; omega
          show readBack (n+1)
              ((storeFields h fs).1 ++ [HValue.obj (storeFields h fs).2])
              (storeFields h fs).1.length = some (.obj fs)
          rw [readBack, getElem?_concat]
          show Option.map JValue.obj
              (readFields n ((storeFields h fs).1 ++ [HValue.obj (storeFields h fs).2])
                (storeFields h fs).2) = some (JValue.obj fs)
          rw [storeFields_readBack fs h [HValue.obj (storeFields h fs).2] n hd']
          rfl

/-- Stored field lists read back as the stored fields, also after further
appends. -/
theorem storeFields_readBack (fs : JFields) (h : Heap) :
    ∀ (ext : Heap) (fuel : Nat), weightF fs ≤ fuel →
    readFields fuel ((storeFields h fs).1 ++ ext) (storeFields h fs).2 = some fs := by
  intro ext fuel hd
  cases fs with
  | nil =>
      show readFields fuel (h ++ ext) [] = some .nil
      rw [readFields]
  | cons k v rest =>
      rw [weightF] at hd
      cases fuel with
      | zero => omega
      | succ n =>
          have hdv : weight v ≤ n := by omega
          have hdr : weightF rest ≤ n := by omega
          show readFields (n+1) ((storeFields (storeVal h v).1 rest).1 ++ ext)
                ((k, (storeVal h v).2) :: (storeFields (storeVal h v).1 rest).2) =
              some (.cons k v rest)
          rw [readFields]
          have hv1 : readBack n (storeVal h v).1 (storeVal h v).2 = some v :=
            storeVal_readBack v h n hdv
          obtain ⟨e2, he2⟩ := storeFields_append rest (storeVal h v).1
          have hagree : ∀ (i : Nat) (w : HValue), (storeVal h v).1[i]? = some w →
              ((storeFields (storeVal h v).1 rest).1 ++ ext)[i]? = some w := by
            intro i w hw
            rw [he2, List.append_assoc]
            exact getElem?_append_some _ i hw
          have hv2 := (readBack_readFields_agree n).1 _ _ hagree _ _ hv1
          rw [hv2, storeFields_readBack rest (storeVal h v).1 ext n hdr]
end

/-- `Except.map` produces `.ok` exactly from `.ok`. -/
theorem exceptMap_ok {α β : Type} {f : α → β} {x : Except Unit α} {y : β}
    (h : x.map f = .ok y) : ∃ a, x = .ok a ∧ f a = y := by
  cases x with
  | error e => simp [Except.map] at h
  | ok a => exact ⟨a, rfl, Except.ok.inj h⟩

/-- The merge keeps exactly the default's keys, in order: the loop
iterates the default's fields and only replaces values. -/
theorem mergeFields_keys {dfs : JFields} {new : JValue} {dfs' : JFields}
    (h : mergeFields dfs new = .ok dfs') : keysF dfs' = keysF dfs := by
  match dfs, new with
  | .nil, new =>
      rw [mergeFields] at h
      cases h
      rfl
  | .cons k v rest, .obj nfs =>
      rw [mergeFields] at h
      split at h
      · obtain ⟨r, hr, hco⟩ := exceptMap_ok h
        rw [← hco, keysF, keysF, mergeFields_keys hr]
      · split at h
        · split at h
          · exact Except.noConfusion h
          · obtain ⟨r, hr, hco⟩ := exceptMap_ok h
            rw [← hco, keysF, keysF, mergeFields_keys hr]
        · obtain ⟨r, hr, hco⟩ := exceptMap_ok h
          rw [← hco, keysF, keysF, mergeFields_keys hr]
  | .cons k v rest, .str s =>
      rw [mergeFields] at h
      split at h
      · exact Except.noConfusion h
      · obtain ⟨r, hr, hco⟩ := exceptMap_ok h
        rw [← hco, keysF, keysF, mergeFields_keys hr]
  | .cons k v rest, .null => exact Except.noConfusion h
  | .cons k v rest, .bool b => exact Except.noConfusion h
  | .cons k v rest, .num n => exact Except.noConfusion h

/-- A key the loaded mapping does not mention keeps its default value. -/
theorem mergeFields_notin {dfs : JFields} {nfs : JFields} {dfs' : JFields} {k : String}
    (h : mergeFields dfs (.obj nfs) = .ok dfs') (hk : lookupF k nfs = none) :
    lookupF k dfs' = lookupF k dfs := by
  match dfs with
  | .nil =>
      rw [mergeFields] at h
      cases h
      rfl
  | .cons k' v rest =>
      rw [mergeFields] at h
      split at h
      · obtain ⟨r, hr, hco⟩ := exceptMap_ok h
        rw [← hco, lookupF, lookupF]
        by_cases hkk : k = k'
        · simp [hkk]
        · simp only [if_neg hkk]
          exact mergeFields_notin hr hk
      · next nv hl =>
          have hkk : k ≠ k' := by
            intro he
            rw [he, hl] at hk
            exact Option.noConfusion hk
          split at h
          · split at h
            · exact Except.noConfusion h
            · obtain ⟨r, hr, hco⟩ := exceptMap_ok h
              rw [← hco, lookupF, lookupF, if_neg hkk, if_neg hkk]
              exact mergeFields_notin hr hk
          · obtain ⟨r, hr, hco⟩ := exceptMap_ok h
            rw [← hco, lookupF, lookupF, if_neg hkk, if_neg hkk]
            exact mergeFields_notin hr hk

/-- Keys and lookups: a lookup succeeds exactly on the key list. -/
theorem lookupF_mem_keysF (k : String) (fs : JFields) :
    k ∈ keysF fs → ∃ v, lookupF k fs = some v := by
  match fs with
  | .nil => intro hm; simp [keysF] at hm
  | .cons k' v rest =>
      intro hm
      rw [lookupF]
      by_cases hkk : k = k'
      · exact ⟨v, if_pos hkk⟩
      · rw [if_neg hkk]
        refine lookupF_mem_keysF k rest ?_
        rw [keysF] at hm
        rcases List.mem_cons.mp hm with he | hm'
        · exact absurd he hkk
        · exact hm'

mutual
/-- `shapeEq` is reflexive. -/
theorem shapeEq_refl (v : JValue) : shapeEq v v = true := by
  cases v with
  | obj fs => rw [shapeEq]; exact shapeEqF_refl fs
  | null => rfl
  | bool b => rfl
  | num n => rfl
  | str s => rfl

/-- `shapeEqF` is reflexive. -/
theorem shapeEqF_refl (fs : JFields) : shapeEqF fs fs = true := by
  cases fs with
  | nil => rfl
  | cons k v r =>
      rw [shapeEqF]
      simp [shapeEq_refl v, shapeEqF_refl r]
end

/-- A compatible non-mapping loaded value has the default's (scalar)
shape. -/
theorem shapeEq_of_compat_nonobj {v nv : JValue} (hc : compat v nv = true)
    (hno : isObj nv = false) : shapeEq nv v = true := by
  cases v <;> cases nv <;> simp_all [compat, isObj, shapeEq]

mutual
/-- On kind-compatible inputs the recursion succeeds and preserves the
default's shape. -/
theorem updateDictionary_compat {v nv : JValue} (hobj : isObj nv = true)
    (hc : compat v nv = true) :
    ∃ r, updateDictionary v nv = .ok r ∧ shapeEq r v = true := by
  cases nv with
  | null => simp [isObj] at hobj
  | bool b => simp [isObj] at hobj
  | num n => simp [isObj] at hobj
  | str s => simp [isObj] at hobj
  | obj nfs =>
      cases v with
      | null => simp [compat] at hc
      | bool b => simp [compat] at hc
      | num n => simp [compat] at hc
      | str s => simp [compat] at hc
      | obj dfs =>
          rw [compat] at hc
          obtain ⟨rfs, hm, hs⟩ := mergeFields_compat hc
          refine ⟨.obj rfs, ?_, ?_⟩
          · rw [updateDictionary, hm]; rfl
          · rw [shapeEq]; exact hs

/-- The field loop on kind-compatible inputs succeeds and preserves the
default's key skeleton. -/
theorem mergeFields_compat {dfs nfs : JFields} (hc : compatF dfs nfs = true) :
    ∃ rfs, mergeFields dfs (.obj nfs) = .ok rfs ∧ shapeEqF rfs dfs = true := by
  cases dfs with
  | nil => exact ⟨.nil, by rw [mergeFields], rfl⟩
  | cons k v rest =>
      rw [compatF, Bool.and_eq_true] at hc
      obtain ⟨hcv, hcr⟩ := hc
      obtain ⟨rrest, hmr, hsr⟩ := mergeFields_compat hcr
      rw [mergeFields]
      split
      · refine ⟨.cons k v rrest, ?_, ?_⟩
        · rw [hmr]; rfl
        · rw [shapeEqF]; simp [shapeEq_refl v, hsr]
      · next nv hl =>
          rw [hl] at hcv
          change compat v nv = true at hcv
          by_cases hobj : isObj nv = true
          · rw [if_pos hobj]
            obtain ⟨v', hu, hsv⟩ := updateDictionary_compat hobj hcv
            refine ⟨.cons k v' rrest, ?_, ?_⟩
            · rw [hu]
              show Except.map (fun x => JFields.cons k v' x)
                  (mergeFields rest (JValue.obj nfs)) = Except.ok (JFields.cons k v' rrest)
              rw [hmr]; rfl
            · rw [shapeEqF]; simp [hsv, hsr]
          · rw [if_neg hobj]
            refine ⟨.cons k nv rrest, ?_, ?_⟩
            · rw [hmr]; rfl
            · rw [shapeEqF]
              simp [shapeEq_of_compat_nonobj hcv (Bool.of_not_eq_true hobj), hsr]
end

/-! ### Claim theorems -/

/-- `pyEq` against `None` holds only for `None`. -/
theorem pyEq_null {x : JValue} (h : pyEq .null x = true) : x = .null := by
  cases x <;> simp [pyEq] at h
  rfl

/-- C5: for a read failure (`IOError`: file missing/unreadable) and for a
parse failure (`ValueError`: malformed JSON), `__loadSettings` logs the
condition and returns the canonical default document unchanged; neither
failure escapes the method. -/
theorem loadSettings_recovers_defaults :
    (loadSettings .ioError).result = .ok defaultSettings ∧
    (loadSettings .ioError).log = [loadingMsg, ioErrorMsg] ∧
    (loadSettings .valueError).result = .ok defaultSettings ∧
    (loadSettings .valueError).log = [loadingMsg, valueErrorMsg] :=
  ⟨rfl, rfl, rfl, rfl⟩

/-- C10: a document that parses but carries a mapping at `cameraID`,
where the default schema holds the scalar `None`, drives the merge into
iterating the scalar default: the resulting `TypeError` is caught by
neither the `IOError` nor the `ValueError` handler, escapes
`__loadSettings`, and aborts `Environment.__init__`. -/
theorem loadSettings_typeError_escapes (camAvail robAvail : JValue → Bool) :
    updateDictionary .null (.obj .nil) = .error () ∧
    (loadSettings (.parsed (.obj (.cons "cameraID" (.obj .nil) .nil)))).result =
      .error () ∧
    Environment.init (.parsed (.obj (.cons "cameraID" (.obj .nil) .nil)))
      camAvail robAvail = .error () :=
  ⟨rfl, rfl, rfl⟩

/-- C2 counterexample: when the hardware channel's `setExiting` raises,
`close` propagates the exception and neither the analysis subsystem nor
the capture source ever receives its signal — the claimed best-effort,
non-short-circuiting shutdown does not happen. -/
theorem close_short_circuits :
    (close ⟨true, false, false⟩).trace = [.robotSetExiting] ∧
    Sig.visionSetExiting ∉ (close ⟨true, false, false⟩).trace ∧
    Sig.vstreamEndThread ∉ (close ⟨true, false, false⟩).trace ∧
    (close ⟨true, false, false⟩).completed = false := by
  decide

/-- C2 (amended): `close` issues each signal at most once and in the
fixed order hardware → analysis → capture (the trace is always a prefix
of that order, with the hardware signal always issued); when no call
raises, each of the three handles receives its signal exactly once and
`close` returns normally; when an earlier call raises, the exception
propagates and the later handles receive no signal. -/
theorem close_signal_order (b : CloseBehavior) :
    ((close b).trace).count .robotSetExiting = 1 ∧
    ((close b).trace).count .visionSetExiting ≤ 1 ∧
    ((close b).trace).count .vstreamEndThread ≤ 1 ∧
    (close b).trace =
      [Sig.robotSetExiting, .visionSetExiting, .vstreamEndThread].take
        ((close b).trace).length ∧
    (b.robotRaises = false → b.visionRaises = false → b.vstreamRaises = false →
      (close b).trace = [.robotSetExiting, .visionSetExiting, .vstreamEndThread] ∧
      (close b).completed = true) ∧
    (b.robotRaises = true →
      (close b).trace = [.robotSetExiting] ∧ (close b).completed = false) ∧
    (b.robotRaises = false → b.visionRaises = true →
      (close b).trace = [.robotSetExiting, .visionSetExiting] ∧
      (close b).completed = false) := by
  rcases b with ⟨r, v, s⟩
  revert r v s
  decide

/-- C2 witness: with no call raising, all three signals are issued in
order and `close` completes. -/
theorem close_signal_order_witness :
    (close ⟨false, false, false⟩).trace =
      [Sig.robotSetExiting, .visionSetExiting, .vstreamEndThread] ∧
    (close ⟨false, false, false⟩).completed = true :=
  (close_signal_order ⟨false, false, false⟩).2.2.2.2.1 rfl rfl rfl

/-- C4 counterexample: a call that accepts and persists a new value still
returns `None` (no boolean outcome reaches the caller). -/
theorem updateSettings_returns_no_bool :
    (updateSettings false defaultFields "cameraID" (.str "5")).wrote = true ∧
    (updateSettings false defaultFields "cameraID" (.str "5")).raised = false ∧
    (updateSettings false defaultFields "cameraID" (.str "5")).ret ≠ some true := by
  decide

/-- C4 (amended): `updateSettings` returns `None` on every call; the
persisted/unchanged outcome is reported only through the `printf` line
("Saving setting" exactly when the change is accepted, "No settings
changed" otherwise). -/
theorem updateSettings_ret_none_log (w : Bool) (settings : JFields) (category : String)
    (newValue current : JValue) (hcur : lookupF category settings = some current) :
    (updateSettings w settings category newValue).ret = none ∧
    (updateSettings w settings category newValue).log =
      (if ((current == JValue.null) || !pyEq current newValue) &&
          (newValue != JValue.null)
       then [savingMsg category] else [noChangeMsg category]) := by
  simp only [updateSettings, hcur]
  by_cases hc : (((current == JValue.null) || !pyEq current newValue) &&
      (newValue != JValue.null)) = true
  · rw [if_pos hc, if_pos hc]
    cases w
    · exact ⟨rfl, rfl⟩
    · exact ⟨rfl, rfl⟩
  · rw [if_neg hc, if_neg hc]
    exact ⟨rfl, rfl⟩

/-- C4 witness: instantiated at a no-op call. -/
theorem updateSettings_ret_none_log_witness :
    lookupF "cameraID" defaultFields = some .null ∧
    ((updateSettings false defaultFields "cameraID" .null).ret = none ∧
     (updateSettings false defaultFields "cameraID" .null).log =
       (if ((JValue.null == JValue.null) || !pyEq .null .null) &&
           (JValue.null != JValue.null)
        then [savingMsg "cameraID"] else [noChangeMsg "cameraID"])) :=
  ⟨by decide, updateSettings_ret_none_log false defaultFields "cameraID" .null .null
    (by decide)⟩

/-- C7: when a change is accepted (`newValue` non-null and `==`-different
from the stored value) but the disk write raises, the `IOError`
propagates to the caller while the in-memory document already holds the
new value: committed in memory, not committed to disk, with no
rollback. -/
theorem updateSettings_write_failure_state (settings : JFields) (category : String)
    (newValue current : JValue) (hcur : lookupF category settings = some current)
    (hnn : newValue ≠ .null) (hdiff : pyEq current newValue = false) :
    (updateSettings true settings category newValue).raised = true ∧
    (updateSettings true settings category newValue).wrote = false ∧
    (updateSettings true settings category newValue).settings =
      setF category newValue settings := by
  have hc : (((current == JValue.null) || !pyEq current newValue) &&
      (newValue != JValue.null)) = true := by
    simp [hdiff, hnn]
  simp only [updateSettings, hcur]
  rw [if_pos hc]
  exact ⟨rfl, rfl, rfl⟩

/-- C7 witness: instantiated at a failing write of `cameraID = "5"`. -/
theorem updateSettings_write_failure_state_witness :
    lookupF "cameraID" defaultFields = some .null ∧
    JValue.str "5" ≠ JValue.null ∧
    pyEq .null (.str "5") = false ∧
    ((updateSettings true defaultFields "cameraID" (.str "5")).raised = true ∧
     (updateSettings true defaultFields "cameraID" (.str "5")).wrote = false ∧
     (updateSettings true defaultFields "cameraID" (.str "5")).settings =
       setF "cameraID" (.str "5") defaultFields) :=
  ⟨by decide, by decide, by decide,
   updateSettings_write_failure_state defaultFields "cameraID" (.str "5") .null
     (by decide) (by decide) (by decide)⟩

/-- C1 counterexample: the code tests `isinstance(new[key], dict)`, not
the default's shape.  For the loaded document with the scalar `5` at
`motionCalibrations` — where the default holds a nested mapping — the
merge overwrites the mapping with the scalar instead of recursing, so the
result does not keep the default's shape at that key. -/
theorem updateDictionary_overwrites_mapping_default :
    lookupF "motionCalibrations" defaultFields =
      some (.obj motionCalibrationsDefault) ∧
    updateDictionary defaultSettings
        (.obj (.cons "motionCalibrations" (.num 5) .nil)) =
      .ok (.obj (setF "motionCalibrations" (.num 5) defaultFields)) ∧
    lookupF "motionCalibrations" (setF "motionCalibrations" (.num 5) defaultFields) =
      some (.num 5) ∧
    isObj (.num 5) = false := by
  decide

/-- C1 (amended): the merge recurses when the LOADED value at a shared
key is a nested mapping and otherwise overwrites the default's value,
whatever its shape; consequently, for loaded documents that are
kind-compatible with the default (at every shared key, recursively, the
loaded value is a mapping exactly when the default's is), the merge
succeeds and every key of the default is present in the result with the
default's shape (same key skeleton). -/
theorem updateDictionary_shape_compat (dfs nfs : JFields)
    (hc : compatF dfs nfs = true) :
    ∃ rfs, updateDictionary (.obj dfs) (.obj nfs) = .ok (.obj rfs) ∧
      keysF rfs = keysF dfs ∧ shapeEqF rfs dfs = true := by
  obtain ⟨rfs, hm, hs⟩ := mergeFields_compat hc
  refine ⟨rfs, ?_, mergeFields_keys hm, hs⟩
  rw [updateDictionary, hm]
  rfl

/-- C1 witness: instantiated at the default schema and a compatible
loaded document that sets `cameraID` and a nested console flag. -/
theorem updateDictionary_shape_compat_witness :
    compatF defaultFields
      (.cons "cameraID" (.str "5")
        (.cons "consoleSettings" (.obj (.cons "wordWrap" (.bool true) .nil)) .nil)) =
      true ∧
    ∃ rfs, updateDictionary (.obj defaultFields)
        (.obj (.cons "cameraID" (.str "5")
          (.cons "consoleSettings" (.obj (.cons "wordWrap" (.bool true) .nil)) .nil))) =
        .ok (.obj rfs) ∧
      keysF rfs = keysF defaultFields ∧ shapeEqF rfs defaultFields = true :=
  ⟨by decide, updateDictionary_shape_compat defaultFields _ (by decide)⟩

/-- C3: for a category present in the document, `updateSettings` is a
no-op — `json.dump` is not invoked, nothing is raised, and the in-memory
document is unchanged — exactly when the new value is `None` or compares
`==`-equal to the stored value. -/
theorem updateSettings_noop_iff (w : Bool) (settings : JFields) (category : String)
    (newValue current : JValue) (hcur : lookupF category settings = some current) :
    ((updateSettings w settings category newValue).wrote = false ∧
     (updateSettings w settings category newValue).raised = false ∧
     (updateSettings w settings category newValue).settings = settings) ↔
    (newValue = .null ∨ pyEq current newValue = true) := by
  simp only [updateSettings, hcur]
  by_cases hc : (((current == JValue.null) || !pyEq current newValue) &&
      (newValue != JValue.null)) = true
  · rw [if_pos hc]
    rw [Bool.and_eq_true, Bool.or_eq_true, bne_iff_ne] at hc
    obtain ⟨hor, hnn⟩ := hc
    refine iff_of_false ?_ ?_
    · cases w
      · intro ⟨hw, _, _⟩; exact Bool.noConfusion hw
      · intro ⟨_, hr, _⟩; exact Bool.noConfusion hr
    · rintro (hne | heq)
      · exact hnn hne
      · rcases hor with hbn | hnp
        · have hcn : current = .null := by
            have := beq_iff_eq.mp hbn
            exact this
          rw [hcn] at heq
          exact hnn (pyEq_null heq)
        · rw [heq] at hnp
          exact Bool.noConfusion hnp
  · rw [if_neg hc]
    refine iff_of_true ⟨rfl, rfl, rfl⟩ ?_
    rw [Bool.not_eq_true, Bool.and_eq_false_iff] at hc
    rcases hc with hor | hbn
    · rw [Bool.or_eq_false_iff] at hor
      obtain ⟨_, hnp⟩ := hor
      right
      rw [Bool.not_eq_false'] at hnp
      exact hnp
    · left
      have := bne_eq_false_iff_eq.mp hbn
      exact this

/-- C3 witness: a null new value for the present category `cameraID` is
a no-op. -/
theorem updateSettings_noop_iff_witness :
    lookupF "cameraID" defaultFields = some .null ∧
    (((updateSettings false defaultFields "cameraID" .null).wrote = false ∧
      (updateSettings false defaultFields "cameraID" .null).raised = false ∧
      (updateSettings false defaultFields "cameraID" .null).settings = defaultFields) ↔
     (JValue.null = .null ∨ pyEq .null .null = true)) :=
  ⟨by decide, updateSettings_noop_iff false defaultFields "cameraID" .null .null
    (by decide)⟩

/-- C6 counterexample: two loaded documents defeat the claim as stated.
For `{"cameraID": {}}` there is no result at all (the merge raises).  For
`{"motionCalibrations": 5}` the merge succeeds, but the schema key
`stationaryMovement` — present only in the default — is absent from the
result instead of remaining at its default value, because its parent
mapping was overwritten by the scalar. -/
theorem loadSettings_keys_cex :
    (loadSettings (.parsed (.obj (.cons "cameraID" (.obj .nil) .nil)))).result =
      .error () ∧
    hasKey defaultSettings "stationaryMovement" = true ∧
    hasKey (.obj (.cons "motionCalibrations" (.num 5) .nil))
      "stationaryMovement" = false ∧
    (loadSettings (.parsed (.obj (.cons "motionCalibrations" (.num 5) .nil)))).result =
      .ok (.obj (setF "motionCalibrations" (.num 5) defaultFields)) ∧
    hasKey (.obj (setF "motionCalibrations" (.num 5) defaultFields))
      "stationaryMovement" = false := by
  exact ⟨rfl, by decide, by decide, rfl, by decide⟩

/-- C6 (amended): whenever the merge completes, the result's top-level
key list is exactly the default schema's (loaded-only keys are
discarded), and every top-level key the loaded document does not mention
keeps its default value; below an overwritten parent the default's
nested keys can disappear, and on shape-clashing documents the merge
raises instead of returning. -/
theorem loadSettings_top_level_keys (D : JValue) (rfs : JFields)
    (h : (loadSettings (.parsed D)).result = .ok (.obj rfs)) :
    keysF rfs = keysF defaultFields ∧
    (∀ (k : String) (nfs : JFields), D = .obj nfs → lookupF k nfs = none →
      lookupF k rfs = lookupF k defaultFields) := by
  rw [loadSettings] at h
  cases hm : updateDictionary defaultSettings D with
  | error e => rw [hm] at h; exact Except.noConfusion h
  | ok d =>
      rw [hm] at h
      have hd : d = .obj rfs := Except.ok.inj h
      subst hd
      rw [defaultSettings, updateDictionary] at hm
      obtain ⟨a, ha, haco⟩ := exceptMap_ok hm
      have har : a = rfs := JValue.obj.inj haco
      subst har
      refine ⟨mergeFields_keys ha, ?_⟩
      intro k nfs hD hk
      subst hD
      exact mergeFields_notin ha hk

/-- C6 witness: a document with an unknown extra key and a new
`cameraID`; the result keeps exactly the schema's keys and the untouched
`windowState` default. -/
theorem loadSettings_top_level_keys_witness :
    (loadSettings (.parsed (.obj (.cons "extraKey" (.num 1)
        (.cons "cameraID" (.str "5") .nil))))).result =
      .ok (.obj (setF "cameraID" (.str "5") defaultFields)) ∧
    (keysF (setF "cameraID" (.str "5") defaultFields) = keysF defaultFields ∧
     (∀ (k : String) (nfs : JFields),
        JValue.obj (.cons "extraKey" (.num 1) (.cons "cameraID" (.str "5") .nil)) =
          .obj nfs →
        lookupF k nfs = none →
        lookupF k (setF "cameraID" (.str "5") defaultFields) =
          lookupF k defaultFields)) :=
  ⟨by decide, loadSettings_top_level_keys _ _ (by decide)⟩

/-- C8: whatever `__loadSettings` returns, construction completes (the
Coordinator reaches its ready state): a failing activation of a non-null
`cameraID`/`robotID` neither aborts nor escapes `__init__`, and the
affected handle stays unconfigured with the failing identifier
observable.  `setNewCamera`/`setUArm` are modelled from the spec
(their code is not under `src/`) as non-raising soft-failure
activations. -/
theorem init_soft_failure (file : FileOutcome) (camAvail robAvail : JValue → Bool)
    (s : JValue) (hload : (loadSettings file).result = .ok s) :
    ∃ st, Environment.init file camAvail robAvail = .ok st ∧
      (∀ id, lookupF "cameraID" st.settings = some id → id ≠ .null →
        camAvail id = false →
        st.vStream.activeID = none ∧ st.vStream.failedID = some id) ∧
      (∀ id, lookupF "robotID" st.settings = some id → id ≠ .null →
        robAvail id = false →
        st.robot.activeID = none ∧ st.robot.failedID = some id) := by
  have hobj : ∃ rfs, s = .obj rfs ∧ keysF rfs = keysF defaultFields := by
    cases file with
    | ioError =>
        have hds : defaultSettings = s := Except.ok.inj hload
        exact ⟨defaultFields, hds.symm, rfl⟩
    | valueError =>
        have hds : defaultSettings = s := Except.ok.inj hload
        exact ⟨defaultFields, hds.symm, rfl⟩
    | parsed v =>
        rw [loadSettings] at hload
        cases hm : updateDictionary defaultSettings v with
        | error e => rw [hm] at hload; exact Except.noConfusion hload
        | ok d =>
            rw [hm] at hload
            have hd : d = s := Except.ok.inj hload
            subst hd
            rw [defaultSettings, updateDictionary] at hm
            obtain ⟨a, ha, haco⟩ := exceptMap_ok hm
            exact ⟨a, haco.symm, mergeFields_keys ha⟩
  obtain ⟨rfs, hs, hkeys⟩ := hobj
  subst hs
  obtain ⟨cid, hcid⟩ := lookupF_mem_keysF "cameraID" rfs (by rw [hkeys]; decide)
  obtain ⟨rid, hrid⟩ := lookupF_mem_keysF "robotID" rfs (by rw [hkeys]; decide)
  refine ⟨⟨rfs,
      if cid = .null then .fresh else setNewCamera camAvail cid .fresh,
      if rid = .null then .fresh else setUArm robAvail rid .fresh⟩, ?_, ?_, ?_⟩
  · simp only [Environment.init, hload, hcid, hrid]
  · intro id hid hnn hav
    have hid' : lookupF "cameraID" rfs = some id := hid
    rw [hcid] at hid'
    have he : cid = id := Option.some.inj hid'
    subst he
    show (if cid = JValue.null then DeviceHandle.fresh
          else setNewCamera camAvail cid .fresh).activeID = none ∧
         (if cid = JValue.null then DeviceHandle.fresh
          else setNewCamera camAvail cid .fresh).failedID = some cid
    rw [if_neg hnn]
    rw [setNewCamera, if_neg (by rw [hav]; exact Bool.false_ne_true)]
    exact ⟨rfl, rfl⟩
  · intro id hid hnn hav
    have hid' : lookupF "robotID" rfs = some id := hid
    rw [hrid] at hid'
    have he : rid = id := Option.some.inj hid'
    subst he
    show (if rid = JValue.null then DeviceHandle.fresh
          else setUArm robAvail rid .fresh).activeID = none ∧
         (if rid = JValue.null then DeviceHandle.fresh
          else setUArm robAvail rid .fresh).failedID = some rid
    rw [if_neg hnn]
    rw [setUArm, if_neg (by rw [hav]; exact Bool.false_ne_true)]
    exact ⟨rfl, rfl⟩

/-- C8 witness: a settings file naming camera "2" with no device
available; construction still completes. -/
theorem init_soft_failure_witness :
    (loadSettings (.parsed (.obj (.cons "cameraID" (.str "2") .nil)))).result =
      .ok (.obj (setF "cameraID" (.str "2") defaultFields)) ∧
    ∃ st, Environment.init (.parsed (.obj (.cons "cameraID" (.str "2") .nil)))
        (fun _ => false) (fun _ => false) = .ok st ∧
      (∀ id, lookupF "cameraID" st.settings = some id → id ≠ .null →
        (fun (_ : JValue) => false) id = false →
        st.vStream.activeID = none ∧ st.vStream.failedID = some id) ∧
      (∀ id, lookupF "robotID" st.settings = some id → id ≠ .null →
        (fun (_ : JValue) => false) id = false →
        st.robot.activeID = none ∧ st.robot.failedID = some id) :=
  ⟨by decide,
   init_soft_failure (.parsed (.obj (.cons "cameraID" (.str "2") .nil)))
     (fun _ => false) (fun _ => false)
     (.obj (setF "cameraID" (.str "2") defaultFields)) (by decide)⟩

/-- C9: the accessors return deep copies.  With the live document rooted
at `root`, `getSettings` allocates a fresh copy whose root lies beyond
every existing cell and which reads back equal to the document; any
sequence of caller mutations confined to fresh cells (addresses at or
past the old heap end — exactly the cells the copy occupies) leaves the
internal document's read-back unchanged.  The same holds for
`getSetting` and the copied category value. -/
theorem getSettings_deepcopy_frame (fuel : Nat) (h : Heap) (root : Nat)
    (v : JValue) (muts : List (Nat × HValue))
    (hv : readBack fuel h root = some v)
    (hm : ∀ m ∈ muts, h.length ≤ m.1) :
    (getSettings fuel h root = some (storeVal h v) ∧
     h.length ≤ (storeVal h v).2 ∧
     (∀ fuel', weight v ≤ fuel' →
        readBack fuel' (storeVal h v).1 (storeVal h v).2 = some v) ∧
     readBack fuel (applyMuts muts (storeVal h v).1) root = some v) ∧
    (∀ (category : String) (fs : JFields) (w : JValue), v = .obj fs →
      lookupF category fs = some w →
      getSetting fuel h root category = some (storeVal h w) ∧
      h.length ≤ (storeVal h w).2 ∧
      (∀ fuel', weight w ≤ fuel' →
        readBack fuel' (storeVal h w).1 (storeVal h w).2 = some w) ∧
      readBack fuel (applyMuts muts (storeVal h w).1) root = some v) := by
  have hframe : ∀ (u : JValue),
      readBack fuel (applyMuts muts (storeVal h u).1) root = some v := by
    intro u
    have hagree : ∀ (i : Nat) (w' : HValue), h[i]? = some w' →
        (applyMuts muts (storeVal h u).1)[i]? = some w' := by
      intro i w' hw'
      have hlt := getElem?_some_lt h i hw'
      have h1 : (storeVal h u).1[i]? = some w' := by
        obtain ⟨ext, he⟩ := storeVal_append u h
        rw [he]
        exact getElem?_append_some h i hw'
      rw [getElem?_applyMuts muts _ i
        (fun m hm' => Nat.ne_of_lt (lt_of_lt_of_le hlt (hm m hm')))]
      exact h1
    exact (readBack_readFields_agree fuel).1 h _ hagree root v hv
  refine ⟨⟨?_, storeVal_root_ge v h, fun f hf => storeVal_readBack v h f hf,
      hframe v⟩, ?_⟩
  · rw [getSettings, hv]
    rfl
  · intro category fs w hvfs hw
    subst hvfs
    refine ⟨?_, storeVal_root_ge w h, fun f hf => storeVal_readBack w h f hf,
      hframe w⟩
    simp only [getSetting, hv, hw, Option.map_some']

/-- C9 witness: a two-field document, with a caller mutation hitting the
copy's region only. -/
theorem getSettings_deepcopy_frame_witness :
    readBack 3 [HValue.null, HValue.obj [("cameraID", 0)]] 1 =
      some (.obj (.cons "cameraID" .null .nil)) ∧
    (∀ m ∈ [((2 : Nat), HValue.bool true)],
      (([HValue.null, HValue.obj [("cameraID", 0)]] : Heap)).length ≤ m.1) ∧
    ((getSettings 3 [HValue.null, HValue.obj [("cameraID", 0)]] 1 =
        some (storeVal [HValue.null, HValue.obj [("cameraID", 0)]]
          (.obj (.cons "cameraID" .null .nil))) ∧
      ([HValue.null, HValue.obj [("cameraID", 0)]] : Heap).length ≤
        (storeVal [HValue.null, HValue.obj [("cameraID", 0)]]
          (.obj (.cons "cameraID" .null .nil))).2 ∧
      (∀ fuel', weight (.obj (.cons "cameraID" .null .nil)) ≤ fuel' →
        readBack fuel'
          (storeVal [HValue.null, HValue.obj [("cameraID", 0)]]
            (.obj (.cons "cameraID" .null .nil))).1
          (storeVal [HValue.null, HValue.obj [("cameraID", 0)]]
            (.obj (.cons "cameraID" .null .nil))).2 =
          some (.obj (.cons "cameraID" .null .nil))) ∧
      readBack 3
        (applyMuts [((2 : Nat), HValue.bool true)]
          (storeVal [HValue.null, HValue.obj [("cameraID", 0)]]
            (.obj (.cons "cameraID" .null .nil))).1) 1 =
        some (.obj (.cons "cameraID" .null .nil))) ∧
     (∀ (category : String) (fs : JFields) (w : JValue),
        JValue.obj (.cons "cameraID" .null .nil) = .obj fs →
        lookupF category fs = some w →
        getSetting 3 [HValue.null, HValue.obj [("cameraID", 0)]] 1 category =
          some (storeVal [HValue.null, HValue.obj [("cameraID", 0)]] w) ∧
        ([HValue.null, HValue.obj [("cameraID", 0)]] : Heap).length ≤
          (storeVal [HValue.null, HValue.obj [("cameraID", 0)]] w).2 ∧
        (∀ fuel', weight w ≤ fuel' →
          readBack fuel'
            (storeVal [HValue.null, HValue.obj [("cameraID", 0)]] w).1
            (storeVal [HValue.null, HValue.obj [("cameraID", 0)]] w).2 = some w) ∧
        readBack 3
          (applyMuts [((2 : Nat), HValue.bool true)]
            (storeVal [HValue.null, HValue.obj [("cameraID", 0)]] w).1) 1 =
          some (.obj (.cons "cameraID" .null .nil)))) :=
  ⟨by decide, by decide,
   getSettings_deepcopy_frame 3 [HValue.null, HValue.obj [("cameraID", 0)]] 1
     (.obj (.cons "cameraID" .null .nil)) [((2 : Nat), HValue.bool true)]
     (by decide) (by decide)⟩

end UCS
